import Mathlib

/-!
Verification of the creative-market prompt-chaining pipeline
(src/assignment/utils.py, src/assignment/chain.py, src/assignment/app.py).

Python strings are modelled as lists of characters.  The Python values that
flow through the pipeline (results of json.loads, dict payloads) are modelled
by the inductive type Json below.  Machine floats only occur as sampling
temperatures, which the core never inspects; they are carried verbatim as
their decimal literals.  The external model collaborator is modelled as a
function from (prompt, temperature literal) to an optional response text.
-/

/-- Python strings are lists of unicode characters. -/
abbrev Str := List Char

/-- Conversion from Lean string literals. -/
def strOf (s : String) : Str := s.data

/-- Backtick character (written via its code point). -/
def btick : Char := Char.ofNat 96

/-- Opening brace character (written via its code point). -/
def lbrace : Char := Char.ofNat 123

/-- Closing brace character (written via its code point). -/
def rbrace : Char := Char.ofNat 125

/-- Double-quote character (written via its code point). -/
def quoteC : Char := Char.ofNat 34

/-- Backslash character. -/
def bslash : Char := '\\'

/-- Opening bracket character. -/
def lbrack : Char := '['

/-- Closing bracket character. -/
def rbrack : Char := ']'

/-- Whitespace set of the Python str.strip method (ASCII part: space, tab,
newline, carriage return, vertical tab, form feed). -/
def pyIsSpace (c : Char) : Bool :=
  c = ' ' || c = Char.ofNat 9 || c = Char.ofNat 10 || c = Char.ofNat 13 ||
  c = Char.ofNat 11 || c = Char.ofNat 12

/-- Python str.strip: remove leading and trailing whitespace. -/
def pyStrip (s : Str) : Str :=
  ((s.dropWhile pyIsSpace).reverse.dropWhile pyIsSpace).reverse

/-- Python str.upper (ASCII letters; the pipeline only uppercases the labels
A, B, C and their lowercase forms). -/
def pyUpper (s : Str) : Str := s.map Char.toUpper

/-- Whitespace accepted between JSON tokens by the json module
(space, tab, newline, carriage return). -/
def isJsonWs (c : Char) : Bool :=
  c = ' ' || c = Char.ofNat 9 || c = Char.ofNat 10 || c = Char.ofNat 13

/-- Values produced by json.loads.  Numbers keep their source lexeme: the
pipeline never does arithmetic on a parsed number, so the lexeme is a faithful
representation that avoids machine floats. -/
inductive Json where
  | null : Json
  | bool (b : Bool) : Json
  | num (lexeme : Str) : Json
  | str (s : Str) : Json
  | arr (items : List Json) : Json
  | obj (members : List (Str × Json)) : Json

/-- Test for the object constructor. -/
def Json.isObj : Json → Bool
  | .obj _ => true
  | _ => false

/-- Prefix test on character lists. -/
def startsWithL : Str → Str → Bool
  | [], _ => true
  | _ :: _, [] => false
  | p :: ps, c :: cs => p = c && startsWithL ps cs

/-- Substring test on character lists. -/
def containsSub : Str → Str → Bool
  | pat, [] => pat.isEmpty
  | pat, c :: rest => startsWithL pat (c :: rest) || containsSub pat rest

/-- Drop JSON whitespace from the front. -/
def skipWs (s : Str) : Str := s.dropWhile isJsonWs

/-- Lexer for the integer part of a JSON number: 0 or a nonzero digit followed
by digits, as in the json module number regex. -/
def lexInt : Str → Option (Str × Str)
  | [] => none
  | c :: rest =>
    if c = '0' then some ([c], rest)
    else if c.isDigit then
      let ds := rest.takeWhile Char.isDigit
      some (c :: ds, rest.drop ds.length)
    else none

/-- Lexer for the optional fraction part of a JSON number. -/
def lexFrac (s : Str) : Str × Str :=
  match s with
  | c :: rest =>
    if c = '.' then
      let ds := rest.takeWhile Char.isDigit
      if ds.isEmpty then ([], s) else (c :: ds, rest.drop ds.length)
    else ([], s)
  | [] => ([], s)

/-- Lexer for the optional exponent part of a JSON number. -/
def lexExp (s : Str) : Str × Str :=
  match s with
  | c :: rest =>
    if c = 'e' || c = 'E' then
      let (sign, r2) :=
        match rest with
        | d :: r => if d = '+' || d = '-' then ([d], r) else (([] : Str), rest)
        | [] => ([], rest)
      let ds := r2.takeWhile Char.isDigit
      if ds.isEmpty then ([], s) else (c :: (sign ++ ds), r2.drop ds.length)
    else ([], s)
  | [] => ([], s)

/-- Lexer for a JSON number, per the json module regex
minus-sign, integer part, optional fraction, optional exponent. -/
def parseNumber (s : Str) : Option (Json × Str) :=
  let (negPart, s1) :=
    match s with
    | c :: rest => if c = '-' then ((['-'] : Str), rest) else (([] : Str), s)
    | [] => ([], s)
  match lexInt s1 with
  | none => none
  | some (ip, s2) =>
    let (fp, s3) := lexFrac s2
    let (ep, s4) := lexExp s3
    some (Json.num (negPart ++ ip ++ fp ++ ep), s4)

/-- Value of a hexadecimal digit. -/
def hexVal (c : Char) : Option Nat :=
  if c.isDigit then some (c.toNat - 48)
  else if 'a' ≤ c && c ≤ 'f' then some (c.toNat - 87)
  else if 'A' ≤ c && c ≤ 'F' then some (c.toNat - 55)
  else none

mutual

/-- Recursive-descent JSON value parser mirroring the strict decoder of the
json module.  The fuel argument only forces termination; json_loads supplies
fuel ample for the input length.  (CPython instead fails on nesting deeper
than its recursion limit; that difference is immaterial here.) -/
def parseValue : Nat → Str → Option (Json × Str)
  | 0, _ => none
  | fuel + 1, s =>
    match s with
    | [] => none
    | c :: rest =>
      if c = lbrace then
        match parseMembersStart fuel (skipWs rest) with
        | some (kvs, r) => some (Json.obj kvs, r)
        | none => none
      else if c = lbrack then
        match parseItemsStart fuel (c :: rest) with
        | some (items, r) => some (Json.arr items, r)
        | none => none
      else if c = quoteC then
        match parseStringRest fuel rest [] with
        | some (cs, r) => some (Json.str cs, r)
        | none => none
      else if startsWithL (strOf "true") (c :: rest) then
        some (Json.bool true, (c :: rest).drop 4)
      else if startsWithL (strOf "false") (c :: rest) then
        some (Json.bool false, (c :: rest).drop 5)
      else if startsWithL (strOf "null") (c :: rest) then
        some (Json.null, (c :: rest).drop 4)
      else if startsWithL (strOf "NaN") (c :: rest) then
        some (Json.num (strOf "NaN"), (c :: rest).drop 3)
      else if startsWithL (strOf "Infinity") (c :: rest) then
        some (Json.num (strOf "Infinity"), (c :: rest).drop 8)
      else if startsWithL (strOf "-Infinity") (c :: rest) then
        some (Json.num (strOf "-Infinity"), (c :: rest).drop 9)
      else parseNumber (c :: rest)

/-- Body of a JSON string after the opening quote; strict mode rejects raw
control characters, decodes the standard escapes and 4-digit unicode
escapes. -/
def parseStringRest : Nat → Str → Str → Option (Str × Str)
  | 0, _, _ => none
  | fuel + 1, s, acc =>
    match s with
    | [] => none
    | c :: rest =>
      if c = quoteC then some (acc.reverse, rest)
      else if c = bslash then
        match rest with
        | [] => none
        | e :: rest2 =>
          if e = quoteC then parseStringRest fuel rest2 (quoteC :: acc)
          else if e = bslash then parseStringRest fuel rest2 (bslash :: acc)
          else if e = '/' then parseStringRest fuel rest2 ('/' :: acc)
          else if e = 'b' then parseStringRest fuel rest2 (Char.ofNat 8 :: acc)
          else if e = 'f' then parseStringRest fuel rest2 (Char.ofNat 12 :: acc)
          else if e = 'n' then parseStringRest fuel rest2 (Char.ofNat 10 :: acc)
          else if e = 'r' then parseStringRest fuel rest2 (Char.ofNat 13 :: acc)
          else if e = 't' then parseStringRest fuel rest2 (Char.ofNat 9 :: acc)
          else if e = 'u' then
            match rest2 with
            | h1 :: h2 :: h3 :: h4 :: rest3 =>
              match hexVal h1, hexVal h2, hexVal h3, hexVal h4 with
              | some a, some b, some c2, some d =>
                parseStringRest fuel rest3
                  (Char.ofNat (((a * 16 + b) * 16 + c2) * 16 + d) :: acc)
              | _, _, _, _ => none
            | _ => none
          else none
      else if c.toNat < 32 then none
      else parseStringRest fuel rest (c :: acc)

/-- Object members after the opening brace (whitespace already skipped):
either an immediate closing brace or a first key string. -/
def parseMembersStart : Nat → Str → Option (List (Str × Json) × Str)
  | 0, _ => none
  | fuel + 1, s =>
    match s with
    | [] => none
    | c :: rest =>
      if c = rbrace then some ([], rest)
      else if c = quoteC then parseMemberKey fuel (c :: rest) []
      else none

/-- Parse one key-colon-value member; the input starts at the key quote. -/
def parseMemberKey : Nat → Str → List (Str × Json) → Option (List (Str × Json) × Str)
  | 0, _, _ => none
  | fuel + 1, s, acc =>
    match s with
    | [] => none
    | c :: rest =>
      if c = quoteC then
        match parseStringRest fuel rest [] with
        | some (key, r1) =>
          match skipWs r1 with
          | c2 :: r2 =>
            if c2 = ':' then
              match parseValue fuel (skipWs r2) with
              | some (v, r3) => parseMemberSep fuel r3 ((key, v) :: acc)
              | none => none
            else none
          | [] => none
        | none => none
      else none

/-- After a member: whitespace, then either the closing brace or a comma and
the next key. -/
def parseMemberSep : Nat → Str → List (Str × Json) → Option (List (Str × Json) × Str)
  | 0, _, _ => none
  | fuel + 1, s, acc =>
    match skipWs s with
    | [] => none
    | c :: rest =>
      if c = rbrace then some (acc.reverse, rest)
      else if c = ',' then
        match skipWs rest with
        | c2 :: r2 => if c2 = quoteC then parseMemberKey fuel (c2 :: r2) acc else none
        | [] => none
      else none

/-- Array items after the opening bracket (the bracket itself is still the
head of the input). -/
def parseItemsStart : Nat → Str → Option (List Json × Str)
  | 0, _ => none
  | fuel + 1, s =>
    match s with
    | [] => none
    | _ :: rest =>
      match skipWs rest with
      | [] => none
      | c2 :: r2 =>
        if c2 = rbrack then some ([], r2)
        else
          match parseValue fuel (c2 :: r2) with
          | some (v, r3) => parseItemsSep fuel r3 [v]
          | none => none

/-- After an array item: whitespace, then either the closing bracket or a
comma and the next item. -/
def parseItemsSep : Nat → Str → List Json → Option (List Json × Str)
  | 0, _, _ => none
  | fuel + 1, s, acc =>
    match skipWs s with
    | [] => none
    | c :: rest =>
      if c = rbrack then some (acc.reverse, rest)
      else if c = ',' then
        match parseValue fuel (skipWs rest) with
        | some (v, r2) => parseItemsSep fuel r2 (v :: acc)
        | none => none
      else none

end

/-- Model of json.loads: parse one value surrounded by optional whitespace;
any trailing data is an error.  The fuel bound exceeds the number of steps the
parser can take on an input of this length. -/
def json_loads (s : Str) : Option Json :=
  match parseValue (3 * s.length + 3) (skipWs s) with
  | some (v, rest) => if skipWs rest = [] then some v else none
  | none => none

example : json_loads (strOf "\x7b\"a\": 1\x7d") =
    some (Json.obj [(strOf "a", Json.num (strOf "1"))]) := by rfl
example : json_loads (strOf "[1, 2]") =
    some (Json.arr [Json.num (strOf "1"), Json.num (strOf "2")]) := by rfl
example : json_loads (strOf " \x7b \"a\" : [true, null, \"x\"] \x7d ") =
    some (Json.obj [(strOf "a",
      Json.arr [Json.bool true, Json.null, Json.str (strOf "x")])]) := by rfl
example : json_loads (strOf "\x7b\"a\": 1\x7d\x7d") = none := by rfl
example : json_loads (strOf "") = none := by rfl
example : json_loads (strOf "-1.5e3") = some (Json.num (strOf "-1.5e3")) := by rfl
example : json_loads (strOf "01") = none := by rfl
example : json_loads (strOf "\"a\\nb\"") =
    some (Json.str ['a', Char.ofNat 10, 'b']) := by rfl

/-- Test for three consecutive backticks at the head. -/
def ticks3 (s : Str) : Bool := startsWithL [btick, btick, btick] s

/-- Remainder of the text after the first occurrence of three backticks
(the leftmost position where the fence regex can start matching). -/
def afterFirstTicks : Str → Option Str
  | [] => none
  | c :: rest => if ticks3 (c :: rest) then some (rest.drop 2) else afterFirstTicks rest

/-- Text before the first occurrence of three backticks, or none when the
text holds no such occurrence. -/
def takeUntilTicks : Str → Option Str
  | [] => none
  | c :: rest =>
    if ticks3 (c :: rest) then some []
    else (takeUntilTicks rest).map (fun t => c :: t)

/-- Capture of the fenced-block regex of parse_json_str: three backticks, an
optional case-insensitive json tag, a lazy body, three closing backticks.
The lazy body together with the leftmost-match rule means: start at the first
backtick triple, optionally eat the json tag, capture up to the next backtick
triple.  The whitespace trimming done by the two greedy whitespace atoms of
the regex is subsumed by the strip that the caller applies to the capture. -/
def fenceGroup (s : Str) : Option Str :=
  match afterFirstTicks s with
  | none => none
  | some r =>
    let r2 := if (r.take 4).map Char.toLower = strOf "json" then r.drop 4 else r
    takeUntilTicks r2

/-- Index of the first occurrence of a character. -/
def idxOfFirst (ch : Char) : Str → Option Nat
  | [] => none
  | c :: rest => if c = ch then some 0 else (idxOfFirst ch rest).map (· + 1)

/-- Index of the last occurrence of a character. -/
def idxOfLast (ch : Char) (s : Str) : Option Nat :=
  (idxOfFirst ch s.reverse).map (fun k => s.length - 1 - k)

/-- Match of the greedy brace regex of parse_json_str: an opening brace, a
greedy any-character body, a closing brace.  The leftmost match with the
greedy body runs from the first opening brace to the last closing brace. -/
def braceSpan (s : Str) : Option Str :=
  match idxOfFirst lbrace s, idxOfLast rbrace s with
  | some i, some j => if i < j then some ((s.drop i).take (j + 1 - i)) else none
  | _, _ => none

/-- Error message raised by parse_json_str when every strategy fails. -/
def errNoJson : Str := strOf "Model did not return valid JSON."

/-- Third strategy of parse_json_str: parse the greedy brace-regex match. -/
def braceFallback (text : Str) : Except Str Json :=
  match braceSpan text with
  | some candidate =>
    match json_loads candidate with
    | some v => .ok v
    | none => .error errNoJson
  | none => .error errNoJson

/-- Model of utils.parse_json_str: strip the text, try a direct parse, then a
fenced-block parse, then a brace-substring parse; raise when all fail. -/
def parse_json_str (text0 : Str) : Except Str Json :=
  let text := pyStrip text0
  match json_loads text with
  | some v => .ok v
  | none =>
    match fenceGroup text with
    | some g =>
      match json_loads (pyStrip g) with
      | some v => .ok v
      | none => braceFallback text
    | none => braceFallback text

/-- Failure of the direct-parse strategy on the stripped text. -/
def direct_fails (text : Str) : Bool := (json_loads text).isNone

/-- Failure of the fenced-block strategy on the stripped text: no fence match
or a fence capture that does not parse. -/
def fence_fails (text : Str) : Bool :=
  match fenceGroup text with
  | none => true
  | some g => (json_loads (pyStrip g)).isNone

/-- Failure of the brace-substring strategy on the stripped text. -/
def brace_fails (text : Str) : Bool :=
  match braceSpan text with
  | none => true
  | some c => (json_loads c).isNone

example : parse_json_str (strOf "  \x7b\"a\": 1\x7d  ") =
    .ok (Json.obj [(strOf "a", Json.num (strOf "1"))]) := by rfl
example : parse_json_str (strOf "") = .error errNoJson := by rfl
example : parse_json_str (strOf "no json here") = .error errNoJson := by rfl
example : fenceGroup (strOf "x\x60\x60\x60json\n\x7b\"a\": 1\x7d\n\x60\x60\x60y")
    = some (strOf "\n\x7b\"a\": 1\x7d\n") := by rfl
example : parse_json_str (strOf "pre \x60\x60\x60JSON \x7b\"a\": 2\x7d \x60\x60\x60 post") =
    .ok (Json.obj [(strOf "a", Json.num (strOf "2"))]) := by rfl
example : parse_json_str (strOf "see \x7b\"a\": 1\x7d ok") =
    .ok (Json.obj [(strOf "a", Json.num (strOf "1"))]) := by rfl
example : parse_json_str (strOf "\x7b\"a\": 1\x7d\x7d") = .error errNoJson := by rfl
example : braceSpan (strOf "see \x7b\"a\": 1\x7d ok") = some (strOf "\x7b\"a\": 1\x7d") := by rfl

/-- Hexadecimal digit character (lowercase), as used by the json module when
escaping control characters. -/
def hexDigit (n : Nat) : Char :=
  if n < 10 then Char.ofNat (48 + n) else Char.ofNat (87 + n)

/-- Escaping of one character by json.dumps with ensure_ascii disabled:
backslash, quote and the named control characters get short escapes, other
control characters get a 4-digit unicode escape, everything else is kept. -/
def escapeChar (c : Char) : Str :=
  if c = quoteC then [bslash, quoteC]
  else if c = bslash then [bslash, bslash]
  else if c = Char.ofNat 10 then [bslash, 'n']
  else if c = Char.ofNat 13 then [bslash, 'r']
  else if c = Char.ofNat 9 then [bslash, 't']
  else if c = Char.ofNat 8 then [bslash, 'b']
  else if c = Char.ofNat 12 then [bslash, 'f']
  else if c.toNat < 32 then
    [bslash, 'u', '0', '0', hexDigit (c.toNat / 16), hexDigit (c.toNat % 16)]
  else [c]

/-- Escape every character of a string for json.dumps. -/
def escapeStr : Str → Str
  | [] => []
  | c :: rest => escapeChar c ++ escapeStr rest

mutual

/-- Model of json.dumps with ensure_ascii disabled and the default
separators (comma-space and colon-space), as called by the step functions.
A number is emitted as its stored lexeme (CPython would re-render the float;
the pipeline never feeds a parsed number back into a prompt in a way any
claim depends on). -/
def json_dumps : Json → Str
  | .null => strOf "null"
  | .bool true => strOf "true"
  | .bool false => strOf "false"
  | .num lexeme => lexeme
  | .str s => quoteC :: (escapeStr s ++ [quoteC])
  | .arr items => lbrack :: (dumpsItems items ++ [rbrack])
  | .obj kvs => lbrace :: (dumpsMembers kvs ++ [rbrace])

/-- Comma-separated array items for json_dumps. -/
def dumpsItems : List Json → Str
  | [] => []
  | [x] => json_dumps x
  | x :: y :: rest => json_dumps x ++ strOf ", " ++ dumpsItems (y :: rest)

/-- Comma-separated object members for json_dumps. -/
def dumpsMembers : List (Str × Json) → Str
  | [] => []
  | [(k, v)] => (quoteC :: (escapeStr k ++ [quoteC])) ++ strOf ": " ++ json_dumps v
  | (k, v) :: m :: rest =>
    (quoteC :: (escapeStr k ++ [quoteC])) ++ strOf ": " ++ json_dumps v ++
    strOf ", " ++ dumpsMembers (m :: rest)

end

example : json_dumps (Json.obj [(strOf "a", Json.arr [Json.num (strOf "1"), Json.null])])
    = strOf "\x7b\"a\": [1, null]\x7d" := by rfl

/-- Python-dict lookup on an association list where a later binding of the
same key overwrites an earlier one (dict-comprehension semantics). -/
def lookupLast (m : List (Str × Json)) (k : Str) : Option Json :=
  match m with
  | [] => none
  | (k1, v) :: rest =>
    match lookupLast rest k with
    | some r => some r
    | none => if k1 = k then some v else none

/-- Total field lookup on a Json value: none when the value is not an object
or lacks the key. -/
def jsonGet (j : Json) (k : Str) : Option Json :=
  match j with
  | .obj kvs => lookupLast kvs k
  | _ => none

/-- Model of the Python dict .get(key, default) call: an attribute error is
raised when the receiver is not a dict. -/
def pyGet (j : Json) (k : Str) (dflt : Json) : Except Str Json :=
  match j with
  | .obj kvs => .ok ((lookupLast kvs k).getD dflt)
  | _ => .error (strOf "AttributeError: object has no attribute get")

/-- Coercion of a Json value to a Python string, as required before calling a
string method on it; anything else raises. -/
def asStr : Json → Except Str Str
  | .str s => .ok s
  | _ => .error (strOf "AttributeError: value is not a string")

/-- Truthiness of a number lexeme: a nonzero digit in the mantissa, or one of
the non-finite constants. -/
def numTruthy (lexeme : Str) : Bool :=
  (lexeme.takeWhile (fun c => !(c = 'e' || c = 'E'))).any
    (fun c => c.isDigit && !(c = '0')) ||
  lexeme.any (fun c => c = 'N' || c = 'I')

/-- Python truthiness of a Json value. -/
def jsonTruthy : Json → Bool
  | .null => false
  | .bool b => b
  | .num lexeme => numTruthy lexeme
  | .str s => !s.isEmpty
  | .arr items => !items.isEmpty
  | .obj kvs => !kvs.isEmpty

/-- Configured system message (utils.SYSTEM_MESSAGE). -/
def SYSTEM_MESSAGE : Str :=
  strOf "Think privately but never reveal reasoning. Output only JSON or final formatted text."

/-- Configured default market string (utils.DEFAULT_AUDIENCE). -/
def DEFAULT_AUDIENCE : Str := strOf "People in Riyadh, Saudi Arabia"

/-- Model of utils.get_api_key.  The Streamlit secrets store and the process
environment are passed as explicit lookup functions; a lookup returning none
covers both a missing entry and a raised exception (both leave the key
unset in the source).  Falsiness of an optional string follows Python: unset
or empty. -/
def optTruthy : Option Str → Bool
  | none => false
  | some s => !s.isEmpty

/-- Fetch the API key from secrets or environment, in the order of the
source: secrets GEMINI_API_KEY, secrets GOOGLE_API_KEY, env GEMINI_API_KEY,
env GOOGLE_API_KEY, else the empty string. -/
def get_api_key (secrets env : Str → Option Str) : Str :=
  let k1 := secrets (strOf "GEMINI_API_KEY")
  let k2 := if optTruthy k1 then k1 else secrets (strOf "GOOGLE_API_KEY")
  let k3 := if optTruthy k2 then k2
            else if optTruthy (env (strOf "GEMINI_API_KEY")) then env (strOf "GEMINI_API_KEY")
            else env (strOf "GOOGLE_API_KEY")
  if optTruthy k3 then k3.getD [] else []

/-- Snapshot returned by utils.get_current_context.  The source derives it
from the wall clock and the fixed cultural-events table; the wall clock is an
external input, so the snapshot is passed explicitly to the steps that read
it. -/
structure ContextSnapshot where
  current_date : Str
  current_month : Str
  current_year : Int
  season : Str
  cultural_events : List Str
  weekday : Str
  is_weekend : Bool
  context_note : Str

/-- Decimal rendering of an integer (for the current_year payload field). -/
def intLexeme (i : Int) : Str :=
  match i with
  | .ofNat n => Nat.toDigits 10 n
  | .negSucc n => '-' :: Nat.toDigits 10 (n + 1)

/-- Dict payload built by get_current_context, in source field order. -/
def contextJson (ctx : ContextSnapshot) : Json :=
  Json.obj [
    (strOf "current_date", Json.str ctx.current_date),
    (strOf "current_month", Json.str ctx.current_month),
    (strOf "current_year", Json.num (intLexeme ctx.current_year)),
    (strOf "season", Json.str ctx.season),
    (strOf "cultural_events", Json.arr (ctx.cultural_events.map Json.str)),
    (strOf "weekday", Json.str ctx.weekday),
    (strOf "is_weekend", Json.bool ctx.is_weekend),
    (strOf "context_note", Json.str ctx.context_note)]

/-- External model collaborator: a text response (or nothing) for a prompt
and a temperature literal.  Transport-level failures are outside the core and
not modelled; the source propagates them unchanged. -/
abbrev Model := Str → Str → Option Str

/-- Model of utils.call_gemini_json: send the prompt, take the response text
(empty when the collaborator returns nothing) and run the JSON extractor. -/
def call_gemini_json (model : Model) (prompt : Str) (temperature : Str) : Except Str Json :=
  parse_json_str ((model prompt temperature).getD [])

/-- Raw-input payload of step 1, in source field order. -/
def brief_raw_input (product description audience tone language : Str) : Json :=
  Json.obj [
    (strOf "product", Json.str product),
    (strOf "description", Json.str description),
    (strOf "audience", Json.str audience),
    (strOf "tone", Json.str tone),
    (strOf "language", Json.str language)]

/-- Prompt of step 1 (Brief Normalizer). -/
def brief_prompt (product description audience tone language : Str) : Str :=
  strOf "Role: Brief Normalizer\nTask: Given a raw brief, produce a clean, standardized JSON object that will be passed to other steps.\nInput JSON:\n" ++
  json_dumps (brief_raw_input product description audience tone language) ++
  strOf "\nOutput JSON schema (no additional fields):\n\x7b\n  \"product\": string,\n  \"description\": string,\n  \"audience\": string,\n  \"tone\": string,\n  \"language\": \"English\" | \"Arabic\",\n  \"objectives\": string[],\n  \"constraints\": string[]\n\x7d\nRules:\n- The default target market is Riyadh, Saudi Arabia (KSA). If the input audience is generic or empty, enrich it with this specific context.\n- Correct typos and normalize while preserving meaning.\n- Use concise phrasing.\n- Do not include nulls; use [] for empty arrays.\n- Respond ONLY with minified JSON."

/-- Step 1: normalize raw user inputs into a clean brief JSON
(chain.step_brief_normalizer). -/
def step_brief_normalizer (model : Model)
    (product description audience tone language : Str) : Except Str Json :=
  call_gemini_json model (brief_prompt product description audience tone language)
    (strOf "0.4")

/-- Prompt of step 2 (Market Intelligence Analyst). -/
def market_prompt (brief : Json) (ctx : ContextSnapshot) : Str :=
  strOf "Role: Market Intelligence Analyst\nTask: Analyze the KSA market context and provide strategic insights for the campaign brief.\nIMPORTANT: Today is " ++
  ctx.context_note ++ strOf ". Current cultural events: " ++
  List.intercalate (strOf ", ") ctx.cultural_events ++
  strOf ".\nInput JSON:\n" ++
  json_dumps (Json.obj [(strOf "brief", brief),
                        (strOf "current_context", contextJson ctx)]) ++
  strOf "\nOutput JSON schema:\n\x7b\n  \"market_insights\": \x7b\n    \"cultural_moments\": string[],\n    \"local_trends\": string[],\n    \"target_behaviors\": string[],\n    \"competitive_landscape\": string[],\n    \"opportunities\": string[],\n    \"seasonal_relevance\": string[]\n  \x7d\n\x7d\nRules:\n- Use the current date and season provided to give timely, relevant insights.\n- Focus on Riyadh/KSA market specifically unless different location specified.\n- Consider current season, weather, cultural events happening NOW.\n- Include seasonal shopping patterns, behavioral changes, cultural moments.\n- Identify 3-5 items per category.\n- Respond ONLY with minified JSON."

/-- Step 2: generate market insights (chain.step_market_intelligence). -/
def step_market_intelligence (model : Model) (brief : Json)
    (ctx : ContextSnapshot) : Except Str Json :=
  call_gemini_json model (market_prompt brief ctx) (strOf "0.6")

/-- Prompt of step 3 (Creative Strategist). -/
def angle_prompt (brief mi : Json) (ctx : ContextSnapshot) : Str :=
  strOf "Role: Creative Strategist\nTask: Using the brief and market insights, propose exactly 5 distinct creative angles for ad campaigns.\nCURRENT TIMING CONTEXT: " ++
  ctx.context_note ++ strOf ". Today is " ++ ctx.weekday ++
  strOf ".\nInput JSON:\n" ++
  json_dumps (Json.obj [(strOf "brief", brief),
                        (strOf "market_insights", mi),
                        (strOf "current_context", contextJson ctx)]) ++
  strOf "\nOutput JSON schema (exactly 5):\n\x7b\n  \"angles\": [\n    \x7b\n      \"id\": \"1\"..\"5\",\n      \"title\": string,\n      \"insight\": string,\n      \"key_message\": string,\n      \"cultural_hook\": string,\n      \"timing_consideration\": string\n    \x7d\n  ]\n\x7d\nRules:\n- Use the current date/season to create timely, relevant angles.\n- Leverage market insights to create culturally resonant angles for Riyadh/KSA.\n- Each angle must tap into what\x27s happening NOW - current season, events, behaviors.\n- Consider immediate timing opportunities (current weather, seasonal activities, cultural moments).\n- Angles must be distinct and non-overlapping.\n- Tailor to the audience and tone.\n- Respond ONLY with minified JSON."

/-- Step 3: generate exactly 5 creative angles (chain.step_angle_generator).
The cardinality request lives only in the prompt text; the returned value is
whatever the extractor recovers. -/
def step_angle_generator (model : Model) (brief market_insights : Json)
    (ctx : ContextSnapshot) : Except Str Json := do
  let mi ← pyGet market_insights (strOf "market_insights") (Json.obj [])
  call_gemini_json model (angle_prompt brief mi ctx) (strOf "0.7")

/-- Prompt of step 4 (Idea Writer). -/
def idea_prompt (brief angleList : Json) : Str :=
  strOf "Role: Idea Writer\nTask: Using the brief and angles, write exactly 3 campaign ideas (A, B, C) with required fields.\nInput JSON:\n" ++
  json_dumps (Json.obj [(strOf "brief", brief), (strOf "angles", angleList)]) ++
  strOf "\nOutput JSON schema (exactly 3):\n\x7b\n  \"ideas\": [\n    \x7b\n      \"label\": \"A\"|\"B\"|\"C\",\n      \"based_on_angle_id\": \"1\"..\"5\",\n      \"tagline\": string,\n      \"script_30s\": string,\n      \"captions\": \x7b \"instagram\": string, \"x\": string \x7d,\n      \"cta\": string\n    \x7d\n  ]\n\x7d\nConstraints:\n- Scripts and captions must be culturally and locally relevant for the Riyadh, Saudi Arabia (KSA) market unless a different audience is specified.\n- Longer narrative: ~130–170 words (about 40s), with a clear beginning, middle, and end.\n- Captions are punchy; no hashtags unless essential.\n- Align with tone and audience.\n- Respond ONLY with minified JSON."

/-- Step 4: write 3 campaign ideas (chain.step_idea_writer).  As in step 3,
the cardinality request lives only in the prompt text. -/
def step_idea_writer (model : Model) (brief angles : Json) : Except Str Json := do
  let angleList ← pyGet angles (strOf "angles") (Json.arr [])
  call_gemini_json model (idea_prompt brief angleList) (strOf "0.85")

/-- Prompt of step 5 (Critic and Improve). -/
def critic_prompt (brief ideaList : Json) : Str :=
  strOf "Role: Critic & Improve\nTask: Review the ideas, identify weaknesses, and revise them. Output only the improved versions.\nInput JSON:\n" ++
  json_dumps (Json.obj [(strOf "brief", brief), (strOf "ideas", ideaList)]) ++
  strOf "\nOutput JSON schema:\n\x7b\n  \"ideas\": [\n    \x7b\n      \"label\": \"A\"|\"B\"|\"C\",\n      \"based_on_angle_id\": \"1\"..\"5\",\n      \"tagline\": string,\n      \"script_30s\": string,\n      \"captions\": \x7b \"instagram\": string, \"x\": string \x7d,\n      \"cta\": string\n    \x7d\n  ]\n\x7d\nRules:\n- Review for cultural appropriateness for the Riyadh/KSA market. Revise any idea that might not land well.\n- Keep original strengths; fix clarity, hook, and CTA strength.\n- Ensure each idea is distinct; remove redundancy.\n- Respond ONLY with minified JSON."

/-- Step 5: critique and revise ideas (chain.step_critic_improve). -/
def step_critic_improve (model : Model) (brief ideas : Json) : Except Str Json := do
  let ideaList ← pyGet ideas (strOf "ideas") (Json.arr [])
  call_gemini_json model (critic_prompt brief ideaList) (strOf "0.6")

/-- Prompt of step 6 (Compliance and Cultural Reviewer). -/
def compliance_prompt (brief ideaList : Json) : Str :=
  strOf "Role: Compliance & Cultural Reviewer\nTask: Review campaign ideas for compliance with KSA advertising guidelines and cultural appropriateness.\nInput JSON:\n" ++
  json_dumps (Json.obj [(strOf "brief", brief), (strOf "ideas", ideaList)]) ++
  strOf "\nOutput JSON schema:\n\x7b\n  \"ideas\": [\n    \x7b\n      \"label\": \"A\"|\"B\"|\"C\",\n      \"based_on_angle_id\": \"1\"..\"5\",\n      \"tagline\": string,\n      \"script_30s\": string,\n      \"captions\": \x7b \"instagram\": string, \"x\": string \x7d,\n      \"cta\": string,\n      \"compliance_notes\": string\n    \x7d\n  ]\n\x7d\nRules:\n- Ensure compliance with Saudi Arabia advertising regulations and cultural sensitivities.\n- Check for appropriate representation, modest imagery suggestions, respectful tone.\n- Verify timing considerations (prayer times, cultural events, weekends).\n- Remove or revise any potentially problematic content.\n- Add brief compliance notes explaining any changes made.\n- Respond ONLY with minified JSON."

/-- Step 6: compliance check (chain.step_compliance_check). -/
def step_compliance_check (model : Model) (brief ideas : Json) : Except Str Json := do
  let ideaList ← pyGet ideas (strOf "ideas") (Json.arr [])
  call_gemini_json model (compliance_prompt brief ideaList) (strOf "0.4")

/-- Prompt of step 7 (Localize and Polish). -/
def localize_prompt (language tone ideaList : Json) : Str :=
  strOf "Role: Localize/Polish\nTask: Refine the ideas to the requested language and tone. If the language is Arabic, fully localize the content to natural Modern Standard Arabic. If the language is English, just polish the existing English text for clarity and impact.\nStyle Guide (apply strictly):\n- Use a friendly, conversational second-person voice (\"you\").\n- Prefer short sentences (8–15 words) and simple everyday words.\n- Open scripts with a concrete moment or scenario (e.g., \"Imagine...\", \"It\x27s 2 PM in Riyadh...\").\n- Show, not tell: add 1–2 light sensory cues without hype.\n- Keep scripts ~120–160 words, split into 3–5 short paragraphs.\n- Captions: IG slightly expressive; X concise and punchy. Avoid unnecessary hashtags.\n- Do not invent product claims; no health/functional promises.\nInput JSON:\n" ++
  json_dumps (Json.obj [(strOf "language", language), (strOf "tone", tone),
                        (strOf "ideas", ideaList)]) ++
  strOf "\nOutput JSON schema (same as input ideas schema):\n\x7b\n  \"ideas\": [\n    \x7b\n      \"label\": \"A\"|\"B\"|\"C\",\n      \"based_on_angle_id\": \"1\"..\"5\",\n      \"tagline\": string,\n      \"script_30s\": string,\n      \"captions\": \x7b \"instagram\": string, \"x\": string \x7d,\n      \"cta\": string\n    \x7d\n  ]\n\x7d\nRules:\n- Perform a final cultural polish to ensure content is appropriate and effective for the target market (defaulting to Riyadh, KSA).\n- Preserve meaning while adjusting tone.\n- For Arabic, use proper Modern Standard Arabic, not transliteration.\n- For English, focus on polishing grammar, style, and flow.\n- Respond ONLY with minified JSON."

/-- Step 7: final refinement (chain.step_localize_polish). -/
def step_localize_polish (model : Model) (brief ideas : Json) : Except Str Json := do
  let language ← pyGet brief (strOf "language") (Json.str (strOf "English"))
  let tone ← pyGet brief (strOf "tone") (Json.str [])
  let ideaList ← pyGet ideas (strOf "ideas") (Json.arr [])
  call_gemini_json model (localize_prompt language tone ideaList) (strOf "0.5")

/-- Field access pattern idea.get(key, empty).upper() of the presenter. -/
def getUpperField (idea : Json) (k : Str) : Except Str Str := do
  let v ← pyGet idea k (Json.str [])
  let s ← asStr v
  pure (pyUpper s)

/-- Field access pattern idea.get(key, empty).strip() of the presenter. -/
def getStrippedField (idea : Json) (k : Str) : Except Str Str := do
  let v ← pyGet idea k (Json.str [])
  let s ← asStr v
  pure (pyStrip s)

/-- Rendering of one idea into its Markdown section, mirroring the loop body
of chain.step_final_presenter (field order and formatting as in source). -/
def renderSection (idea : Json) : Except Str Str := do
  let label ← getUpperField idea (strOf "label")
  let tagline ← getStrippedField idea (strOf "tagline")
  let script_30s ← getStrippedField idea (strOf "script_30s")
  let captions0 ← pyGet idea (strOf "captions") (Json.obj [])
  let captions := if jsonTruthy captions0 then captions0 else Json.obj []
  let ig ← getStrippedField captions (strOf "instagram")
  let xcap ← getStrippedField captions (strOf "x")
  let cta ← getStrippedField idea (strOf "cta")
  let compliance_notes ← getStrippedField idea (strOf "compliance_notes")
  let complianceSection :=
    if compliance_notes.isEmpty then ([] : Str)
    else strOf "\n\n*Compliance Notes: " ++ compliance_notes ++ strOf "*"
  pure (strOf "### Option " ++ label ++ strOf "\n#### " ++ tagline ++
        strOf "\n\n> " ++ script_30s ++
        strOf "\n\n**Captions**\n- **IG**: " ++ ig ++
        strOf "\n- **X**: " ++ xcap ++
        strOf "\n\n**CTA**: " ++ cta ++ complianceSection ++ strOf "\n")

/-- Dict comprehension of the presenter: map each uppercased label to its
idea (a later idea with the same key overwrites an earlier one). -/
def buildByLabel : List Json → List (Str × Json) → Except Str (List (Str × Json))
  | [], acc => .ok acc
  | i :: rest, acc => do
    let l ← getUpperField i (strOf "label")
    buildByLabel rest (acc ++ [(l, i)])

/-- Rendering of every selected idea in order (the for loop of the
presenter). -/
def renderSections : List Json → Except Str (List Str)
  | [] => .ok []
  | i :: rest => do
    let s ← renderSection i
    let r ← renderSections rest
    .ok (s :: r)

/-- Model of chain.step_final_presenter: select the ideas labelled A, B, C
(uppercased, last occurrence winning), drop missing or falsy entries, render
each section and join with blank lines. -/
def step_final_presenter (ideas : List Json) : Except Str Str := do
  let by_label ← buildByLabel ideas []
  let ordered0 := [lookupLast by_label (strOf "A"), lookupLast by_label (strOf "B"),
                   lookupLast by_label (strOf "C")]
  let ordered := (ordered0.filterMap id).filter jsonTruthy
  let sections ← renderSections ordered
  pure (List.intercalate (strOf "\n\n") sections)

/-- Audience defaulting of app.main: strip the form input and replace an
empty result by the configured default market string. -/
def final_audience_of (audience : Str) : Str :=
  let s := pyStrip audience
  if s = [] then DEFAULT_AUDIENCE else s

/-- Outcome surfaced by one run of app.main after the submit button. -/
inductive RunOutcome where
  | missingKey : RunOutcome
  | hardFailure (message : Str) : RunOutcome
  | emptyResult : RunOutcome
  | success (markdown : Str) : RunOutcome

/-- Test for the success outcome. -/
def RunOutcome.isSuccess : RunOutcome → Bool
  | .success _ => true
  | _ => false

/-- Generic failure message of the except block of app.main. -/
def hardFailureMsg (e : Str) : Str := strOf "Generation failed: " ++ e

/-- Empty-or-not-a-list test of app.main on the final ideas value. -/
def emptyOrNotList : Json → Bool
  | .arr items => items.isEmpty
  | _ => true

/-- Model of the submitted branch of app.main: default the audience, check
the API key, run the seven steps in sequence, check the final ideas list and
render it.  Any step exception is caught by the single except block and
surfaced as the generic failure message. -/
def run_pipeline (secrets env : Str → Option Str) (model : Model)
    (product description audience tone language : Str)
    (ctx : ContextSnapshot) : RunOutcome :=
  let final_audience := final_audience_of audience
  if get_api_key secrets env = [] then .missingKey
  else
    match step_brief_normalizer model product description final_audience tone language with
    | .error e => .hardFailure (hardFailureMsg e)
    | .ok brief =>
    match step_market_intelligence model brief ctx with
    | .error e => .hardFailure (hardFailureMsg e)
    | .ok market_insights =>
    match step_angle_generator model brief market_insights ctx with
    | .error e => .hardFailure (hardFailureMsg e)
    | .ok angles =>
    match step_idea_writer model brief angles with
    | .error e => .hardFailure (hardFailureMsg e)
    | .ok ideas =>
    match step_critic_improve model brief ideas with
    | .error e => .hardFailure (hardFailureMsg e)
    | .ok improved =>
    match step_compliance_check model brief improved with
    | .error e => .hardFailure (hardFailureMsg e)
    | .ok compliant =>
    match step_localize_polish model brief compliant with
    | .error e => .hardFailure (hardFailureMsg e)
    | .ok localized =>
    match pyGet localized (strOf "ideas") (Json.arr []) with
    | .error e => .hardFailure (hardFailureMsg e)
    | .ok final_ideas =>
    match final_ideas with
    | Json.arr items =>
      if items.isEmpty then .emptyResult
      else
        match step_final_presenter items with
        | .ok markdown => .success markdown
        | .error e => .hardFailure (hardFailureMsg e)
    | _ => .emptyResult

/-- Modelled from the spec: scanner state for collecting the top-level
brace-delimited spans of a text (depth zero outside a span; a span opens at a
brace and closes when the depth returns to zero; an unclosed trailing span is
not a span). -/
def spansAux : Str → Nat → Str → List Str → List Str
  | [], _, _, done => done.reverse
  | c :: rest, 0, _, done =>
    if c = lbrace then spansAux rest 1 [c] done else spansAux rest 0 [] done
  | c :: rest, d + 1, acc, done =>
    if c = lbrace then spansAux rest (d + 2) (c :: acc) done
    else if c = rbrace then
      if d = 0 then spansAux rest 0 [] ((c :: acc).reverse :: done)
      else spansAux rest d (c :: acc) done
    else spansAux rest (d + 1) (c :: acc) done

/-- Modelled from the spec: the top-level brace-delimited spans of a text, in
order of occurrence.  This renders the notion of a top-level brace span used
by the extractor claims; it is compared against the greedy regex behaviour of
the source. -/
def topLevelSpans (s : Str) : List Str := spansAux s 0 [] []

example : topLevelSpans (strOf "see \x7b\"a\": 1\x7d ok") = [strOf "\x7b\"a\": 1\x7d"] := by rfl
example : topLevelSpans (strOf "\x7b\"a\": 1\x7d\x7d") = [strOf "\x7b\"a\": 1\x7d"] := by rfl
example : topLevelSpans (strOf "\x7bx\x7by\x7dz\x7d w \x7bq\x7d") =
    [strOf "\x7bx\x7by\x7dz\x7d", strOf "\x7bq\x7d"] := by rfl

/-- Specification-side label of an idea: the uppercased string value of its
label field, or the empty string when the field is missing (a non-string
label is outside the well-formedness condition). -/
def labelOf (i : Json) : Str :=
  match jsonGet i (strOf "label") with
  | some (.str s) => pyUpper s
  | _ => []

/-- Specification-side stripped string field of an idea. -/
def fieldOf (i : Json) (k : Str) : Str :=
  match jsonGet i k with
  | some (.str s) => pyStrip s
  | _ => []

/-- Specification-side captions object of an idea: the captions value when
truthy, else an empty object. -/
def captionsOf (i : Json) : Json :=
  match jsonGet i (strOf "captions") with
  | some v => if jsonTruthy v then v else Json.obj []
  | none => Json.obj []

/-- Specification-side caption field of an idea. -/
def capFieldOf (i : Json) (k : Str) : Str := fieldOf (captionsOf i) k

/-- Specification-side section text for one idea, per the Presenter contract
of the spec: heading, tagline, quoted script, the two captions, the
call-to-action, and a compliance-notes line when the compliance_notes field
carries non-blank content. -/
def spec_block (i : Json) : Str :=
  strOf "### Option " ++ labelOf i ++
  strOf "\n#### " ++ fieldOf i (strOf "tagline") ++
  strOf "\n\n> " ++ fieldOf i (strOf "script_30s") ++
  strOf "\n\n**Captions**\n- **IG**: " ++ capFieldOf i (strOf "instagram") ++
  strOf "\n- **X**: " ++ capFieldOf i (strOf "x") ++
  strOf "\n\n**CTA**: " ++ fieldOf i (strOf "cta") ++
  (if (fieldOf i (strOf "compliance_notes")).isEmpty then ([] : Str)
   else strOf "\n\n*Compliance Notes: " ++ fieldOf i (strOf "compliance_notes") ++ strOf "*") ++
  strOf "\n"

/-- Specification-side selection: the last idea of the list whose uppercased
label equals the given label. -/
def spec_select (ideas : List Json) (l : Str) : Option Json :=
  (ideas.filter (fun i => decide (labelOf i = l))).getLast?

/-- Specification-side Presenter: format the ideas selected for labels A, B,
C in that order, skipping labels not present, joined by blank lines. -/
def presenter_spec (ideas : List Json) : Str :=
  List.intercalate (strOf "\n\n")
    (([strOf "A", strOf "B", strOf "C"].filterMap (spec_select ideas)).map spec_block)

/-- Field well-formedness: the key is absent or carries a string value. -/
def strFieldOK (i : Json) (k : Str) : Bool :=
  match jsonGet i k with
  | none => true
  | some (.str _) => true
  | some _ => false

/-- Captions well-formedness: absent, null, or an object whose instagram and
x entries are absent or strings. -/
def capsOK (i : Json) : Bool :=
  match jsonGet i (strOf "captions") with
  | none => true
  | some Json.null => true
  | some (Json.obj kvs) =>
    strFieldOK (Json.obj kvs) (strOf "instagram") && strFieldOK (Json.obj kvs) (strOf "x")
  | some _ => false

/-- Well-formed idea: an object whose presenter-read fields are strings when
present and whose captions entry is well formed.  On such ideas the Python
presenter raises nothing. -/
def WFIdea (i : Json) : Bool :=
  i.isObj && strFieldOK i (strOf "label") && strFieldOK i (strOf "tagline") &&
  strFieldOK i (strOf "script_30s") && strFieldOK i (strOf "cta") &&
  strFieldOK i (strOf "compliance_notes") && capsOK i

/-- Test whether an object carries a key. -/
def hasKey (i : Json) (k : Str) : Bool := (jsonGet i k).isSome

example : step_final_presenter
    [Json.obj [(strOf "label", Json.str (strOf "a")),
               (strOf "tagline", Json.str (strOf "T")),
               (strOf "script_30s", Json.str (strOf "S")),
               (strOf "captions", Json.obj [(strOf "instagram", Json.str (strOf "I")),
                                            (strOf "x", Json.str (strOf "X"))]),
               (strOf "cta", Json.str (strOf "C")),
               (strOf "compliance_notes", Json.str (strOf ""))]] =
    .ok (strOf "### Option A\n#### T\n\n> S\n\n**Captions**\n- **IG**: I\n- **X**: X\n\n**CTA**: C\n") := by rfl

example : presenter_spec
    [Json.obj [(strOf "label", Json.str (strOf "a")),
               (strOf "tagline", Json.str (strOf "T")),
               (strOf "script_30s", Json.str (strOf "S")),
               (strOf "captions", Json.obj [(strOf "instagram", Json.str (strOf "I")),
                                            (strOf "x", Json.str (strOf "X"))]),
               (strOf "cta", Json.str (strOf "C")),
               (strOf "compliance_notes", Json.str (strOf ""))]] =
    strOf "### Option A\n#### T\n\n> S\n\n**Captions**\n- **IG**: I\n- **X**: X\n\n**CTA**: C\n" := by rfl

/-- Claim C2: the extractor parse_json_str tries the direct parse, the
fenced-block parse and the brace-substring parse in that order, swallowing
each failure, and raises its error exactly when all three strategies fail;
the empty input always fails. -/
theorem c2_extractor_order :
    (∀ t : Str, parse_json_str t = .error errNoJson ↔
      (direct_fails (pyStrip t) = true ∧ fence_fails (pyStrip t) = true ∧
       brace_fails (pyStrip t) = true)) ∧
    (∀ (t : Str) (v : Json), json_loads (pyStrip t) = some v →
      parse_json_str t = .ok v) ∧
    (∀ (t g : Str) (v : Json), json_loads (pyStrip t) = none →
      fenceGroup (pyStrip t) = some g → json_loads (pyStrip g) = some v →
      parse_json_str t = .ok v) ∧
    (∀ (t c : Str) (v : Json), direct_fails (pyStrip t) = true →
      fence_fails (pyStrip t) = true → braceSpan (pyStrip t) = some c →
      json_loads c = some v → parse_json_str t = .ok v) ∧
    parse_json_str [] = .error errNoJson := by
  refine ⟨?_, ?_, ?_, ?_, rfl⟩
  · intro t
    unfold parse_json_str direct_fails fence_fails brace_fails braceFallback
    cases h1 : json_loads (pyStrip t) with
    | some v => simp [h1]
    | none =>
      cases h2 : fenceGroup (pyStrip t) with
      | some g =>
        cases h3 : json_loads (pyStrip g) with
        | some v => simp [h1, h2, h3]
        | none =>
          cases h4 : braceSpan (pyStrip t) with
          | some c =>
            cases h5 : json_loads c with
            | some v => simp [h1, h2, h3, h4, h5]
            | none => simp [h1, h2, h3, h4, h5]
          | none => simp [h1, h2, h3, h4]
      | none =>
        cases h4 : braceSpan (pyStrip t) with
        | some c =>
          cases h5 : json_loads c with
          | some v => simp [h1, h2, h4, h5]
          | none => simp [h1, h2, h4, h5]
        | none => simp [h1, h2, h4]
  · intro t v h
    unfold parse_json_str
    simp [h]
  · intro t g v h1 h2 h3
    unfold parse_json_str
    simp [h1, h2, h3]
  · intro t c v h1 h2 h3 h4
    unfold parse_json_str braceFallback
    unfold direct_fails at h1
    cases h0 : json_loads (pyStrip t) with
    | some w => rw [h0] at h1; simp at h1
    | none =>
      unfold fence_fails at h2
      cases hf : fenceGroup (pyStrip t) with
      | some g =>
        rw [hf] at h2
        simp only [] at h2
        cases hg : json_loads (pyStrip g) with
        | some w => rw [hg] at h2; simp at h2
        | none => simp [h0, hf, hg, h3, h4]
      | none => simp [h0, hf, h3, h4]

/-- Witness for C2: the extractor succeeds directly on a plain JSON object
and fails on the empty string. -/
theorem c2_extractor_order_witness :
    parse_json_str (strOf "\x7b\"k\": 1\x7d") =
      .ok (Json.obj [(strOf "k", Json.num (strOf "1"))]) ∧
    parse_json_str [] = .error errNoJson :=
  ⟨c2_extractor_order.2.1 (strOf "\x7b\"k\": 1\x7d") _ rfl, c2_extractor_order.2.2.2.2⟩

theorem idxOfFirst_drop (ch : Char) :
    ∀ (s : Str) (i : Nat), idxOfFirst ch s = some i → (s.drop i).head? = some ch := by
  intro s
  induction s with
  | nil => intro i h; simp [idxOfFirst] at h
  | cons c rest ih =>
    intro i h
    unfold idxOfFirst at h
    by_cases hc : c = ch
    · rw [if_pos hc] at h
      injection h with h
      subst h
      simp [hc]
    · rw [if_neg hc] at h
      cases hf : idxOfFirst ch rest with
      | none => rw [hf] at h; simp at h
      | some k =>
        rw [hf] at h
        simp only [Option.map_some'] at h
        injection h with h
        subst h
        simpa using ih k hf

theorem head?_take_pos {α : Type} {n : Nat} (l : List α) (h : 0 < n) :
    (l.take n).head? = l.head? := by
  cases n with
  | zero => exact absurd h (Nat.lt_irrefl 0)
  | succ m => cases l <;> rfl

theorem braceSpan_head (s c : Str) (h : braceSpan s = some c) : c.head? = some lbrace := by
  unfold braceSpan at h
  cases hi : idxOfFirst lbrace s with
  | none => rw [hi] at h; simp at h
  | some i =>
    cases hj : idxOfLast rbrace s with
    | none => rw [hi, hj] at h; simp at h
    | some j =>
      rw [hi, hj] at h
      simp only [] at h
      by_cases hij : i < j
      · rw [if_pos hij] at h
        injection h with h
        subst h
        rw [head?_take_pos _ (by omega)]
        exact idxOfFirst_drop lbrace s i hi
      · rw [if_neg hij] at h; simp at h

theorem skipWs_not_ws (c : Char) (r : Str) (h : isJsonWs c = false) :
    skipWs (c :: r) = c :: r := by
  simp [skipWs, List.dropWhile, h]

theorem parseValue_succ_lbrace (fuel : Nat) (r : Str) :
    parseValue (fuel + 1) (lbrace :: r) =
      match parseMembersStart fuel (skipWs r) with
      | some (kvs, rest) => some (Json.obj kvs, rest)
      | none => none := by
  simp [parseValue]

theorem json_loads_obj_of_head (c : Str) (v : Json)
    (h1 : c.head? = some lbrace) (h2 : json_loads c = some v) : v.isObj = true := by
  obtain ⟨r, rfl⟩ : ∃ r, c = lbrace :: r := by
    cases c with
    | nil => simp at h1
    | cons a r =>
      simp only [List.head?_cons, Option.some.injEq] at h1
      exact ⟨r, by rw [h1]⟩
  unfold json_loads at h2
  rw [skipWs_not_ws _ _ (by decide)] at h2
  rw [show 3 * (lbrace :: r).length + 3 = (3 * (lbrace :: r).length + 2) + 1 from rfl] at h2
  rw [parseValue_succ_lbrace] at h2
  cases hm : parseMembersStart (3 * (lbrace :: r).length + 2) (skipWs r) with
  | none => rw [hm] at h2; simp at h2
  | some p =>
    obtain ⟨kvs, rest⟩ := p
    rw [hm] at h2
    simp only [] at h2
    by_cases he : skipWs rest = []
    · rw [if_pos he] at h2
      injection h2 with h2
      rw [← h2]
      rfl
    · rw [if_neg he] at h2; simp at h2

theorem braceFallback_obj (text : Str) (v : Json)
    (h : braceFallback text = .ok v) : v.isObj = true := by
  unfold braceFallback at h
  cases hb : braceSpan text with
  | none => rw [hb] at h; simp at h
  | some c =>
    rw [hb] at h
    simp only [] at h
    cases hc : json_loads c with
    | none => rw [hc] at h; simp at h
    | some w =>
      rw [hc] at h
      simp only [Except.ok.injEq] at h
      subst h
      exact json_loads_obj_of_head c w (braceSpan_head text c hb) hc

/-- Claim C3 counterexample: on the input text consisting of a JSON array,
the extractor succeeds via the direct-parse strategy and returns an array,
not an object. -/
theorem c3_counterexample :
    parse_json_str (strOf "[1, 2]") =
      .ok (Json.arr [Json.num (strOf "1"), Json.num (strOf "2")]) ∧
    Json.isObj (Json.arr [Json.num (strOf "1"), Json.num (strOf "2")]) = false := by
  exact ⟨rfl, rfl⟩

/-- Claim C3, amended: a successful extraction may return any JSON value
(array, string, number, boolean or null) when the direct or fenced strategy
parses it; only when both of those strategies fail, so that the
brace-substring strategy produced the value, is the result guaranteed to be
a JSON object. -/
theorem c3_amended (t : Str) (v : Json)
    (h1 : direct_fails (pyStrip t) = true)
    (h2 : fence_fails (pyStrip t) = true)
    (h3 : parse_json_str t = .ok v) :
    v.isObj = true := by
  unfold parse_json_str at h3
  simp only [] at h3
  unfold direct_fails at h1
  cases h0 : json_loads (pyStrip t) with
  | some w => rw [h0] at h1; simp at h1
  | none =>
    rw [h0] at h3
    simp only [] at h3
    unfold fence_fails at h2
    cases hf : fenceGroup (pyStrip t) with
    | some g =>
      rw [hf] at h2
      rw [hf] at h3
      simp only [] at h2 h3
      cases hg : json_loads (pyStrip g) with
      | some w => rw [hg] at h2; simp at h2
      | none =>
        rw [hg] at h3
        simp only [] at h3
        exact braceFallback_obj _ _ h3
    | none =>
      rw [hf] at h3
      simp only [] at h3
      exact braceFallback_obj _ _ h3

/-- Witness for the amended C3: a text whose only JSON is a brace substring
embedded in prose yields an object. -/
theorem c3_amended_witness :
    parse_json_str (strOf "x \x7b\"a\": 1\x7d") =
      .ok (Json.obj [(strOf "a", Json.num (strOf "1"))]) ∧
    Json.isObj (Json.obj [(strOf "a", Json.num (strOf "1"))]) = true :=
  ⟨rfl, c3_amended (strOf "x \x7b\"a\": 1\x7d") _ rfl rfl rfl⟩

/-- Claim C4 counterexample: a text holding exactly one top-level brace span
followed by a stray closing brace.  The trimmed text does not parse directly,
there is no fenced block, and the span parses as a JSON object, yet the
extractor fails: its greedy brace regex matches from the first opening brace
to the last closing brace, which includes the stray brace and does not
parse. -/
theorem c4_counterexample :
    topLevelSpans (strOf "\x7b\"a\": 1\x7d\x7d") = [strOf "\x7b\"a\": 1\x7d"] ∧
    json_loads (pyStrip (strOf "\x7b\"a\": 1\x7d\x7d")) = none ∧
    fence_fails (pyStrip (strOf "\x7b\"a\": 1\x7d\x7d")) = true ∧
    json_loads (strOf "\x7b\"a\": 1\x7d") =
      some (Json.obj [(strOf "a", Json.num (strOf "1"))]) ∧
    parse_json_str (strOf "\x7b\"a\": 1\x7d\x7d") = .error errNoJson :=
  ⟨rfl, rfl, rfl, rfl, rfl⟩

/-- Claim C4, amended: for text containing exactly one top-level brace span
that parses as JSON, whose trimmed form does not parse directly, with no
parseable fenced block, and with no closing brace after the span (so that
the greedy first-brace-to-last-brace match of the source is exactly that
span), the extractor returns the parse of that span. -/
theorem c4_amended (t span : Str) (v : Json)
    (_hspan : topLevelSpans (pyStrip t) = [span])
    (hdir : json_loads (pyStrip t) = none)
    (hfence : fence_fails (pyStrip t) = true)
    (hgreedy : braceSpan (pyStrip t) = some span)
    (hparse : json_loads span = some v) :
    parse_json_str t = .ok v := by
  unfold parse_json_str braceFallback
  unfold fence_fails at hfence
  cases hf : fenceGroup (pyStrip t) with
  | some g =>
    rw [hf] at hfence
    simp only [] at hfence
    cases hg : json_loads (pyStrip g) with
    | some w => rw [hg] at hfence; simp at hfence
    | none => simp [hdir, hf, hg, hgreedy, hparse]
  | none => simp [hdir, hf, hgreedy, hparse]

/-- Witness for the amended C4: prose around a single brace span is
recovered. -/
theorem c4_amended_witness :
    parse_json_str (strOf "see \x7b\"a\": 1\x7d ok") =
      .ok (Json.obj [(strOf "a", Json.num (strOf "1"))]) :=
  c4_amended (strOf "see \x7b\"a\": 1\x7d ok") (strOf "\x7b\"a\": 1\x7d") _
    rfl rfl rfl rfl rfl

/-- Concrete context snapshot for witnesses. -/
def ctx0 : ContextSnapshot :=
  ⟨strOf "2025-01-01", strOf "January", 2025, strOf "Winter",
   [strOf "New Year period"], strOf "Wednesday", false,
   strOf "Current date: January 1, 2025 (Winter season in KSA)"⟩

/-- Collaborator returning a fixed payload with two angles and one idea. -/
def cm_model : Model :=
  fun _ _ => some (strOf "\x7b\"angles\": [\x7b\x7d, \x7b\x7d], \"ideas\": [\x7b\"label\": \"A\"\x7d]\x7d")

/-- Parsed form of the fixed payload of cm_model. -/
def cm_payload : Json :=
  Json.obj [
    (strOf "angles", Json.arr [Json.obj [], Json.obj []]),
    (strOf "ideas", Json.arr [Json.obj [(strOf "label", Json.str (strOf "A"))]])]

/-- Claim C1 counterexample: with a collaborator returning two angles and one
idea, step 3 returns the two-angle result and step 4 the one-idea result
without any validation failure, and a full pipeline run on this collaborator
even finishes successfully — the wrong counts flow downstream instead of
terminating the run. -/
theorem c1_counterexample :
    step_angle_generator cm_model (Json.obj []) (Json.obj []) ctx0 = .ok cm_payload ∧
    jsonGet cm_payload (strOf "angles") =
      some (Json.arr [Json.obj [], Json.obj []]) ∧
    ([Json.obj [], Json.obj []] : List Json).length ≠ 5 ∧
    step_idea_writer cm_model (Json.obj []) cm_payload = .ok cm_payload ∧
    jsonGet cm_payload (strOf "ideas") =
      some (Json.arr [Json.obj [(strOf "label", Json.str (strOf "A"))]]) ∧
    ([Json.obj [(strOf "label", Json.str (strOf "A"))]] : List Json).length ≠ 3 ∧
    (run_pipeline (fun _ => some (strOf "k")) (fun _ => none) cm_model
      (strOf "p") (strOf "d") (strOf "aud") (strOf "t") (strOf "English")
      ctx0).isSuccess = true :=
  ⟨rfl, rfl, by decide, rfl, rfl, by decide, rfl⟩

/-- Claim C1, amended: the list-producing step functions perform no
cardinality or schema validation at all — each returns exactly the value the
JSON extractor recovers from the model response, whatever the length of any
angles or ideas list in it; the cardinality request lives only in the prompt
text. -/
theorem c1_amended (model : Model) (brief market_insights angles mi angleList : Json)
    (ctx : ContextSnapshot) (j k : Json)
    (h1 : pyGet market_insights (strOf "market_insights") (Json.obj []) = .ok mi)
    (h2 : call_gemini_json model (angle_prompt brief mi ctx) (strOf "0.7") = .ok j)
    (h3 : pyGet angles (strOf "angles") (Json.arr []) = .ok angleList)
    (h4 : call_gemini_json model (idea_prompt brief angleList) (strOf "0.85") = .ok k) :
    step_angle_generator model brief market_insights ctx = .ok j ∧
    step_idea_writer model brief angles = .ok k := by
  constructor
  · unfold step_angle_generator
    rw [h1]
    exact h2
  · unfold step_idea_writer
    rw [h3]
    exact h4

/-- Witness for the amended C1: the two-angle, one-idea payload is returned
unchanged by both steps. -/
theorem c1_amended_witness :
    step_angle_generator cm_model (Json.obj []) (Json.obj []) ctx0 = .ok cm_payload ∧
    step_idea_writer cm_model (Json.obj []) (Json.obj []) = .ok cm_payload :=
  c1_amended cm_model (Json.obj []) (Json.obj []) (Json.obj [])
    (Json.obj []) (Json.arr []) ctx0 cm_payload cm_payload rfl rfl rfl rfl

theorem pyGet_obj (j : Json) (k dflt : _) (h : j.isObj = true) :
    pyGet j k dflt = .ok ((jsonGet j k).getD dflt) := by
  cases j with
  | obj kvs => rfl
  | null => simp [Json.isObj] at h
  | bool b => simp [Json.isObj] at h
  | num lexeme => simp [Json.isObj] at h
  | str s => simp [Json.isObj] at h
  | arr items => simp [Json.isObj] at h

/-- Claim C6: when no API key is resolvable from any configured source, the
run fails fast with the missing-credential condition, and the outcome does
not depend on the model collaborator at all — no model call of any step is
attempted. -/
theorem c6_missing_key (secrets env : Str → Option Str) (model : Model)
    (product description audience tone language : Str) (ctx : ContextSnapshot)
    (h : get_api_key secrets env = []) :
    run_pipeline secrets env model product description audience tone language ctx =
      .missingKey ∧
    ∀ other : Model,
      run_pipeline secrets env other product description audience tone language ctx =
      run_pipeline secrets env model product description audience tone language ctx := by
  have hrun : ∀ m : Model,
      run_pipeline secrets env m product description audience tone language ctx =
        .missingKey := by
    intro m
    simp [run_pipeline, h]
  exact ⟨hrun model, fun other => by rw [hrun other, hrun model]⟩

/-- Witness for C6: lookups that always fail give the missing-key outcome. -/
theorem c6_missing_key_witness :
    run_pipeline (fun _ => none) (fun _ => none) cm_model
      (strOf "p") (strOf "d") (strOf "a") (strOf "t") (strOf "English") ctx0 =
      .missingKey :=
  (c6_missing_key (fun _ => none) (fun _ => none) cm_model
    (strOf "p") (strOf "d") (strOf "a") (strOf "t") (strOf "English") ctx0 rfl).1

/-- Collaborator whose normalized brief carries an empty audience. -/
def ca_model : Model := fun _ _ => some (strOf "\x7b\"audience\": \"\"\x7d")

/-- Claim C7 counterexample: for an empty submitted audience the stage input
is defaulted, but the resulting Brief is unvalidated model output — with this
collaborator the Brief carries the empty string as audience, not the
configured default market string, refuting the resulting-Brief half of the
claim. -/
theorem c7_counterexample :
    step_brief_normalizer ca_model (strOf "p") (strOf "d")
      (final_audience_of (strOf "")) (strOf "t") (strOf "English") =
      .ok (Json.obj [(strOf "audience", Json.str [])]) ∧
    jsonGet (Json.obj [(strOf "audience", Json.str [])]) (strOf "audience") =
      some (Json.str []) ∧
    ([] : Str) ≠ DEFAULT_AUDIENCE :=
  ⟨rfl, rfl, by decide⟩

/-- Claim C7, amended: for every submitted brief whose audience is empty or
whitespace-only, the orchestrator passes the configured default market
string — a non-empty value — as the audience input of the Brief Normalizer
(it appears as the audience field of the raw-input payload of step 1); the
audience of the resulting Brief is whatever the model returns and is not
validated. -/
theorem c7_amended (product description audience tone language : Str)
    (h : pyStrip audience = []) :
    final_audience_of audience = DEFAULT_AUDIENCE ∧
    DEFAULT_AUDIENCE ≠ [] ∧
    jsonGet (brief_raw_input product description (final_audience_of audience)
      tone language) (strOf "audience") = some (Json.str DEFAULT_AUDIENCE) := by
  have h1 : final_audience_of audience = DEFAULT_AUDIENCE := by
    unfold final_audience_of
    simp [h]
  refine ⟨h1, by decide, ?_⟩
  rw [h1]
  rfl

/-- Witness for the amended C7: a whitespace-only audience is defaulted into
the step 1 payload. -/
theorem c7_amended_witness :
    final_audience_of (strOf " ") = DEFAULT_AUDIENCE ∧
    DEFAULT_AUDIENCE ≠ [] ∧
    jsonGet (brief_raw_input (strOf "p") (strOf "d")
      (final_audience_of (strOf " ")) (strOf "t") (strOf "English"))
      (strOf "audience") = some (Json.str DEFAULT_AUDIENCE) :=
  c7_amended (strOf "p") (strOf "d") (strOf " ") (strOf "t") (strOf "English") rfl

/-- Claim C5: when steps 1 through 7 all succeed and the parsed step 7
output is an object whose ideas value is empty or not a list, the
orchestrator reports the distinct empty-result condition — not the malformed
or generic hard-failure outcome — and never reaches the Presenter. -/
theorem c5_empty_result (secrets env : Str → Option Str) (model : Model)
    (product description audience tone language : Str) (ctx : ContextSnapshot)
    (brief mi angles ideas improved compliant localized : Json)
    (hk : ¬ get_api_key secrets env = [])
    (h1 : step_brief_normalizer model product description
      (final_audience_of audience) tone language = .ok brief)
    (h2 : step_market_intelligence model brief ctx = .ok mi)
    (h3 : step_angle_generator model brief mi ctx = .ok angles)
    (h4 : step_idea_writer model brief angles = .ok ideas)
    (h5 : step_critic_improve model brief ideas = .ok improved)
    (h6 : step_compliance_check model brief improved = .ok compliant)
    (h7 : step_localize_polish model brief compliant = .ok localized)
    (hobj : localized.isObj = true)
    (hempty : emptyOrNotList ((jsonGet localized (strOf "ideas")).getD (Json.arr []))
      = true) :
    run_pipeline secrets env model product description audience tone language ctx =
      .emptyResult := by
  have hg := pyGet_obj localized (strOf "ideas") (Json.arr []) hobj
  unfold emptyOrNotList at hempty
  simp only [run_pipeline, h1, h2, h3, h4, h5, h6, h7, hg, if_neg hk]
  cases hv : (jsonGet localized (strOf "ideas")).getD (Json.arr []) with
  | arr items =>
    rw [hv] at hempty
    simp only [] at hempty
    simp [hempty]
  | null => simp
  | bool b => simp
  | num lexeme => simp
  | str s => simp
  | obj kvs => simp

/-- Fixed step 7 payload whose ideas list is empty. -/
def c5_payload : Json := Json.obj [(strOf "ideas", Json.arr [])]

/-- Collaborator that always answers with an empty ideas list. -/
def c5_model : Model := fun _ _ => some (strOf "\x7b\"ideas\": []\x7d")

/-- Witness for C5: a run in which every step succeeds but the final ideas
list is empty yields the empty-result outcome. -/
theorem c5_empty_result_witness :
    run_pipeline (fun _ => some (strOf "k")) (fun _ => none) c5_model
      (strOf "p") (strOf "d") (strOf "a") (strOf "t") (strOf "English") ctx0 =
      .emptyResult :=
  c5_empty_result (fun _ => some (strOf "k")) (fun _ => none) c5_model
    (strOf "p") (strOf "d") (strOf "a") (strOf "t") (strOf "English") ctx0
    c5_payload c5_payload c5_payload c5_payload c5_payload c5_payload c5_payload
    (by decide) rfl rfl rfl rfl rfl rfl rfl rfl rfl

/-- Claim C9: the Presenter is a pure function of its input list — rendering
the same list twice yields byte-identical output (the embedding of
step_final_presenter reads no state beyond its argument). -/
theorem c9_presenter_deterministic (ideas : List Json) :
    step_final_presenter ideas = step_final_presenter ideas := rfl

theorem except_bind_ok {ε α β : Type} (a : α) (f : α → Except ε β) :
    (Except.ok a >>= f : Except ε β) = f a := rfl

theorem except_map_ok {ε α β : Type} (a : α) (f : α → β) :
    Except.map f (.ok a : Except ε α) = .ok (f a) := rfl

theorem WFIdea_parts {i : Json} (h : WFIdea i = true) :
    i.isObj = true ∧ strFieldOK i (strOf "label") = true ∧
    strFieldOK i (strOf "tagline") = true ∧
    strFieldOK i (strOf "script_30s") = true ∧
    strFieldOK i (strOf "cta") = true ∧
    strFieldOK i (strOf "compliance_notes") = true ∧ capsOK i = true := by
  unfold WFIdea at h
  simp only [Bool.and_eq_true] at h
  exact ⟨h.1.1.1.1.1.1, h.1.1.1.1.1.2, h.1.1.1.1.2, h.1.1.1.2, h.1.1.2, h.1.2, h.2⟩

theorem getUpperField_label {i : Json} (hobj : i.isObj = true)
    (hfld : strFieldOK i (strOf "label") = true) :
    getUpperField i (strOf "label") = .ok (labelOf i) := by
  unfold getUpperField labelOf
  rw [pyGet_obj i _ _ hobj]
  simp only [except_bind_ok]
  unfold strFieldOK at hfld
  cases hv : jsonGet i (strOf "label") with
  | none => rfl
  | some v =>
    cases v with
    | str s => rfl
    | null => rw [hv] at hfld; exact Bool.noConfusion hfld
    | bool b => rw [hv] at hfld; exact Bool.noConfusion hfld
    | num lexeme => rw [hv] at hfld; exact Bool.noConfusion hfld
    | arr items => rw [hv] at hfld; exact Bool.noConfusion hfld
    | obj kvs => rw [hv] at hfld; exact Bool.noConfusion hfld

theorem getStrippedField_eq {i : Json} {k : Str} (hobj : i.isObj = true)
    (hfld : strFieldOK i k = true) :
    getStrippedField i k = .ok (fieldOf i k) := by
  unfold getStrippedField fieldOf
  rw [pyGet_obj i _ _ hobj]
  simp only [except_bind_ok]
  unfold strFieldOK at hfld
  cases hv : jsonGet i k with
  | none => rfl
  | some v =>
    cases v with
    | str s => rfl
    | null => rw [hv] at hfld; exact Bool.noConfusion hfld
    | bool b => rw [hv] at hfld; exact Bool.noConfusion hfld
    | num lexeme => rw [hv] at hfld; exact Bool.noConfusion hfld
    | arr items => rw [hv] at hfld; exact Bool.noConfusion hfld
    | obj kvs => rw [hv] at hfld; exact Bool.noConfusion hfld

theorem captions_if_eq (i : Json) :
    (if jsonTruthy ((jsonGet i (strOf "captions")).getD (Json.obj []))
     then (jsonGet i (strOf "captions")).getD (Json.obj [])
     else Json.obj []) = captionsOf i := by
  unfold captionsOf
  cases hv : jsonGet i (strOf "captions") with
  | none => rfl
  | some v => rfl

theorem captionsOf_wf {i : Json} (hcaps : capsOK i = true) :
    (captionsOf i).isObj = true ∧
    strFieldOK (captionsOf i) (strOf "instagram") = true ∧
    strFieldOK (captionsOf i) (strOf "x") = true := by
  unfold capsOK at hcaps
  cases hv : jsonGet i (strOf "captions") with
  | none =>
    have hc : captionsOf i = Json.obj [] := by unfold captionsOf; rw [hv]
    rw [hc]
    exact ⟨rfl, rfl, rfl⟩
  | some v =>
    cases v with
    | null =>
      have hc : captionsOf i = Json.obj [] := by unfold captionsOf; rw [hv]; rfl
      rw [hc]
      exact ⟨rfl, rfl, rfl⟩
    | obj kvs =>
      rw [hv] at hcaps
      have hcaps2 : strFieldOK (Json.obj kvs) (strOf "instagram") = true ∧
          strFieldOK (Json.obj kvs) (strOf "x") = true := by
        have h2 : (strFieldOK (Json.obj kvs) (strOf "instagram") &&
            strFieldOK (Json.obj kvs) (strOf "x")) = true := hcaps
        simpa [Bool.and_eq_true] using h2
      by_cases ht : jsonTruthy (Json.obj kvs) = true
      · have hc : captionsOf i = Json.obj kvs := by
          unfold captionsOf; rw [hv]; simp [ht]
        rw [hc]
        exact ⟨rfl, hcaps2.1, hcaps2.2⟩
      · have hc : captionsOf i = Json.obj [] := by
          unfold captionsOf; rw [hv]; simp [ht]
        rw [hc]
        exact ⟨rfl, rfl, rfl⟩
    | bool b => rw [hv] at hcaps; exact Bool.noConfusion hcaps
    | num lexeme => rw [hv] at hcaps; exact Bool.noConfusion hcaps
    | str s => rw [hv] at hcaps; exact Bool.noConfusion hcaps
    | arr items => rw [hv] at hcaps; exact Bool.noConfusion hcaps

theorem renderSection_eq {i : Json} (h : WFIdea i = true) :
    renderSection i = .ok (spec_block i) := by
  obtain ⟨hobj, hlab, htag, hscr, hcta, hcmp, hcaps⟩ := WFIdea_parts h
  obtain ⟨hcobj, hcig, hcx⟩ := captionsOf_wf hcaps
  unfold renderSection
  rw [getUpperField_label hobj hlab, getStrippedField_eq hobj htag,
      getStrippedField_eq hobj hscr, getStrippedField_eq hobj hcta,
      getStrippedField_eq hobj hcmp, pyGet_obj i (strOf "captions") (Json.obj []) hobj]
  simp only [except_bind_ok]
  rw [captions_if_eq]
  rw [getStrippedField_eq hcobj hcig, getStrippedField_eq hcobj hcx]
  simp only [except_bind_ok]
  rfl

theorem getLast?_cons_eq {α : Type} (a : α) (l : List α) :
    (a :: l).getLast? = match l.getLast? with
                        | some x => some x
                        | none => some a := by
  cases l with
  | nil => rfl
  | cons b t =>
    rw [List.getLast?_cons_cons]
    cases h : (b :: t).getLast? with
    | some x => rfl
    | none => exact absurd (List.getLast?_eq_none_iff.mp h) (by simp)

theorem mem_of_getLastOpt {α : Type} :
    ∀ {l : List α} {a : α}, l.getLast? = some a → a ∈ l := by
  intro l
  induction l with
  | nil => intro a h; simp at h
  | cons b t ih =>
    intro a h
    rw [getLast?_cons_eq] at h
    cases ht : t.getLast? with
    | some x =>
      rw [ht] at h
      injection h with h
      subst h
      exact List.mem_cons_of_mem _ (ih ht)
    | none =>
      rw [ht] at h
      injection h with h
      subst h
      exact List.mem_cons_self _ _

theorem jsonGet_some_truthy {i : Json} {k : Str} {v : Json}
    (h : jsonGet i k = some v) : jsonTruthy i = true := by
  cases i with
  | obj kvs =>
    cases kvs with
    | nil => simp [jsonGet, lookupLast] at h
    | cons p t => rfl
  | null => simp [jsonGet] at h
  | bool b => simp [jsonGet] at h
  | num lexeme => simp [jsonGet] at h
  | str s => simp [jsonGet] at h
  | arr items => simp [jsonGet] at h

theorem spec_select_truthy {ideas : List Json} {l : Str} {i : Json}
    (hl : l ≠ []) (h : spec_select ideas l = some i) : jsonTruthy i = true := by
  unfold spec_select at h
  have hmem := mem_of_getLastOpt h
  obtain ⟨hin, hp⟩ := List.mem_filter.mp hmem
  have hlab : labelOf i = l := by simpa using hp
  unfold labelOf at hlab
  cases hv : jsonGet i (strOf "label") with
  | none =>
    rw [hv] at hlab
    exact absurd hlab.symm hl
  | some v => exact jsonGet_some_truthy hv

theorem spec_select_mem {ideas : List Json} {l : Str} {i : Json}
    (h : spec_select ideas l = some i) : i ∈ ideas := by
  unfold spec_select at h
  exact (List.mem_filter.mp (mem_of_getLastOpt h)).1

theorem buildByLabel_eq :
    ∀ (ideas : List Json) (acc : List (Str × Json)),
      (∀ j ∈ ideas, WFIdea j = true) →
      buildByLabel ideas acc = .ok (acc ++ ideas.map (fun i => (labelOf i, i))) := by
  intro ideas
  induction ideas with
  | nil => intro acc _; simp [buildByLabel]
  | cons i rest ih =>
    intro acc h
    obtain ⟨hobj, hlab, _⟩ := WFIdea_parts (h i (List.mem_cons_self i rest))
    unfold buildByLabel
    rw [getUpperField_label hobj hlab]
    simp only [except_bind_ok]
    rw [ih (acc ++ [(labelOf i, i)]) (fun j hj => h j (List.mem_cons_of_mem _ hj))]
    simp

theorem lookupLast_pairs :
    ∀ (ideas : List Json) (l : Str),
      lookupLast (ideas.map (fun i => (labelOf i, i))) l = spec_select ideas l := by
  intro ideas
  induction ideas with
  | nil => intro l; rfl
  | cons i rest ih =>
    intro l
    unfold lookupLast spec_select
    simp only [List.map_cons]
    rw [ih l]
    unfold spec_select
    rw [List.filter_cons]
    by_cases hl : labelOf i = l
    · simp only [hl, decide_True, if_true]
      rw [getLast?_cons_eq]
      cases hrest : (rest.filter (fun j => decide (labelOf j = l))).getLast? with
      | some x => rfl
      | none => rfl
    · simp only [hl, decide_False, Bool.false_eq_true, if_false]
      cases hrest : (rest.filter (fun j => decide (labelOf j = l))).getLast? with
      | some x => simp [hrest]
      | none => simp [hrest]

theorem renderSections_eq :
    ∀ (l : List Json), (∀ j ∈ l, WFIdea j = true) →
      renderSections l = .ok (l.map spec_block) := by
  intro l
  induction l with
  | nil => intro _; rfl
  | cons i rest ih =>
    intro h
    unfold renderSections
    rw [renderSection_eq (h i (List.mem_cons_self i rest))]
    simp only [except_bind_ok]
    rw [ih (fun j hj => h j (List.mem_cons_of_mem _ hj))]
    simp only [except_bind_ok]
    rfl

theorem filterMap_id_three (f : Str → Option Json) (a b c : Str) :
    ([f a, f b, f c].filterMap id) = [a, b, c].filterMap f := by
  cases ha : f a <;> cases hb : f b <;> cases hc : f c <;>
    simp [List.filterMap_cons, ha, hb, hc]

/-- Idea whose compliance_notes field is present but holds the empty
string. -/
def c8_idea : Json :=
  Json.obj [
    (strOf "label", Json.str (strOf "A")),
    (strOf "tagline", Json.str (strOf "T")),
    (strOf "script_30s", Json.str (strOf "S")),
    (strOf "captions", Json.obj [(strOf "instagram", Json.str (strOf "I")),
                                 (strOf "x", Json.str (strOf "X"))]),
    (strOf "cta", Json.str (strOf "C")),
    (strOf "compliance_notes", Json.str (strOf ""))]

/-- Claim C8 counterexample: an idea whose compliance_notes field is present
(with empty content) is rendered without any compliance-notes line, against
the claim that the line appears exactly when the field is present — the
source emits the line only when the stripped content is non-empty. -/
theorem c8_counterexample :
    hasKey c8_idea (strOf "compliance_notes") = true ∧
    step_final_presenter [c8_idea] =
      .ok (strOf "### Option A\n#### T\n\n> S\n\n**Captions**\n- **IG**: I\n- **X**: X\n\n**CTA**: C\n") ∧
    containsSub (strOf "Compliance")
      (strOf "### Option A\n#### T\n\n> S\n\n**Captions**\n- **IG**: I\n- **X**: X\n\n**CTA**: C\n") = false :=
  ⟨rfl, rfl, rfl⟩

/-- Claim C8, amended: on every list of well-formed idea objects the
Presenter returns exactly the specification rendering — blocks in label
order A, B, C (labels uppercased, last occurrence winning, missing labels
skipped) joined by blank lines, each block holding the heading, tagline,
quoted script, the two captions and the call-to-action, with a
compliance-notes line exactly when the compliance_notes field is present
with non-blank content (not merely present, as the original claim said). -/
theorem c8_amended (ideas : List Json) (h : ∀ j ∈ ideas, WFIdea j = true) :
    step_final_presenter ideas = .ok (presenter_spec ideas) := by
  have hpairs := buildByLabel_eq ideas [] h
  unfold step_final_presenter
  rw [hpairs]
  simp only [List.nil_append, except_bind_ok]
  rw [lookupLast_pairs, lookupLast_pairs, lookupLast_pairs]
  rw [filterMap_id_three (spec_select ideas) (strOf "A") (strOf "B") (strOf "C")]
  have hfilter : ([strOf "A", strOf "B", strOf "C"].filterMap (spec_select ideas)).filter
      jsonTruthy = [strOf "A", strOf "B", strOf "C"].filterMap (spec_select ideas) := by
    rw [List.filter_eq_self]
    intro a ha
    rcases List.mem_filterMap.mp ha with ⟨l, hl, hsel⟩
    have hlne : l ≠ [] := by
      simp only [List.mem_cons, List.not_mem_nil, or_false] at hl
      rcases hl with rfl | rfl | rfl <;> decide
    exact spec_select_truthy hlne hsel
  rw [hfilter]
  have hWFsel : ∀ j ∈ [strOf "A", strOf "B", strOf "C"].filterMap (spec_select ideas),
      WFIdea j = true := by
    intro j hj
    rcases List.mem_filterMap.mp hj with ⟨l, _, hsel⟩
    exact h j (spec_select_mem hsel)
  rw [renderSections_eq _ hWFsel]
  simp only [except_bind_ok]
  rfl

/-- Witness for the amended C8: the presenter output on the concrete idea
list equals the specification rendering. -/
theorem c8_amended_witness :
    step_final_presenter [c8_idea] = .ok (presenter_spec [c8_idea]) :=
  c8_amended [c8_idea] (by
    intro j hj
    simp only [List.mem_singleton] at hj
    subst hj
    rfl)

/-- Selection half of the presenter (source lines building by_label and the
ordered list): the idea chosen for a label after the dict comprehension. -/
def by_label_get (ideas : List Json) (l : Str) : Except Str (Option Json) :=
  Except.map (fun m => lookupLast m l) (buildByLabel ideas [])

/-- Claim C10: the Presenter selects ideas by the uppercased label value —
an idea whose label is lowercase is selected under the uppercase key, and
among several ideas sharing a label up to case the last one in the list is
the one selected. -/
theorem c10_upper_last (xs ys : List Json) (i : Json) (l : Str)
    (hwf : ∀ j ∈ xs ++ i :: ys, WFIdea j = true)
    (hi : labelOf i = l)
    (hys : ∀ j ∈ ys, labelOf j ≠ l) :
    by_label_get (xs ++ i :: ys) l = .ok (some i) := by
  unfold by_label_get
  rw [buildByLabel_eq _ [] hwf]
  rw [except_map_ok]
  simp only [List.nil_append]
  rw [lookupLast_pairs]
  unfold spec_select
  rw [List.filter_append]
  have hys2 : ys.filter (fun j => decide (labelOf j = l)) = [] := by
    rw [List.filter_eq_nil_iff]
    intro j hj
    simpa using hys j hj
  rw [List.filter_cons]
  simp only [hi, decide_True, if_true, hys2]
  rw [show (xs.filter (fun j => decide (labelOf j = l)) ++ i :: ([] : List Json)) =
      (xs.filter (fun j => decide (labelOf j = l)) ++ [i]) from rfl]
  rw [List.getLast?_concat]

/-- First idea with lowercase label. -/
def cx_idea1 : Json :=
  Json.obj [(strOf "label", Json.str (strOf "a")),
            (strOf "tagline", Json.str (strOf "first"))]

/-- Second idea with the same lowercase label. -/
def cx_idea2 : Json :=
  Json.obj [(strOf "label", Json.str (strOf "a")),
            (strOf "tagline", Json.str (strOf "second"))]

/-- Witness for C10: with two ideas labelled lowercase a, the uppercase key
A selects the second (last) one, and the rendered output shows it as
Option A with the second tagline. -/
theorem c10_upper_last_witness :
    by_label_get [cx_idea1, cx_idea2] (strOf "A") = .ok (some cx_idea2) ∧
    step_final_presenter [cx_idea1, cx_idea2] =
      .ok (strOf "### Option A\n#### second\n\n> \n\n**Captions**\n- **IG**: \n- **X**: \n\n**CTA**: \n") :=
  ⟨c10_upper_last [cx_idea1] [] cx_idea2 (strOf "A")
    (by
      intro j hj
      simp only [List.cons_append, List.nil_append, List.mem_cons,
        List.not_mem_nil, or_false] at hj
      rcases hj with rfl | rfl
      · rfl
      · rfl)
    rfl
    (by intro j hj; simp at hj),
   rfl⟩
